import Mathlib

/-!
Shallow embedding of the QR-code detector application
(`src/qr_detector.py` and `src/app.py`).

Pixel buffers are modelled as nested lists of natural-number channel
values; the external OpenCV detector (`cv2.QRCodeDetector
.detectAndDecodeMulti`) is modelled as a function parameter returning the
triple `(decoded_texts, points, straight_qrcodes)` that the source code
destructures (the third component is discarded by the source, so it is
modelled as `Unit`).  Floating-point corner coordinates are modelled as
rationals; `numpy.ndarray.astype(int)` is truncation toward zero.

Python's in-place mutation of buffers (`cv2.polylines`, `cv2.putText`
write into the array passed to them) is modelled by an explicit store of
buffers addressed by natural-number references, so that "`draw_qr_boxes`
does not mutate its input" is a genuine statement about the store and not
a triviality of a pure language.
-/

namespace QRApp

set_option maxHeartbeats 1000000

/-- A quadrilateral boundary: a sequence of `(x, y)` corner points with
rational (modelling float) coordinates. -/
abbrev Box := List (ℚ × ℚ)

/-- A BGR pixel buffer: rows of pixels, each pixel a list of channel
values. -/
abbrev BGRImage := List (List (List Nat))

/-- The `QRCodeResult` record from `src/qr_detector.py`: the data string
of a decoded QR code and its bounding points. -/
structure QRCodeResult where
  data : String
  points : Box
deriving DecidableEq, Repr, Inhabited

/-- The body of the `for text, box in zip(decoded_texts, points)` loop of
`detect_qr_codes`: `if text: results.append(QRCodeResult(data=text,
points=box))`, with Python string truthiness being non-emptiness. -/
def keepDecoded (results : List QRCodeResult) (tb : String × Box) : List QRCodeResult :=
  if tb.1 ≠ "" then results ++ [{ data := tb.1, points := tb.2 }] else results

/-- The result-processing part of `detect_qr_codes`
(`src/qr_detector.py`): given the `decoded_texts` and `points` components
returned by the external detector, return `[]` when `points is None` or
`len(decoded_texts) == 0`, and otherwise keep, in order, the zipped
`(text, box)` pairs whose text is non-empty. -/
def detectFromOutput (decoded_texts : List String) (points : Option (List Box)) :
    List QRCodeResult :=
  match points with
  | none => []
  | some pts =>
    if decoded_texts.length = 0 then []
    else (decoded_texts.zip pts).foldl keepDecoded []

/-- The function `detect_qr_codes` from `src/qr_detector.py`, parametrised by the
external detector call `detector.detectAndDecodeMulti`: the detector
returns `(decoded_texts, points, _)` and the function filters the
results. -/
def detect_qr_codes (detector : BGRImage → List String × Option (List Box) × Unit)
    (image : BGRImage) : List QRCodeResult :=
  let decoded := detector image
  detectFromOutput decoded.1 decoded.2.1

/-- The function `count_qr_codes` from `src/qr_detector.py`: `len(results)`. -/
def count_qr_codes (results : List QRCodeResult) : Nat :=
  results.length

/-- The function `format_results` from `src/app.py`:
`[f"{idx}. {result.data}" for idx, result in enumerate(results, start=1)]`. -/
def format_results (results : List QRCodeResult) : List String :=
  (List.enumFrom 1 results).map (fun p => Nat.repr p.1 ++ ". " ++ p.2.data)

/-- A pixel of a decoded PIL image, in one of the standard colour modes:
3-channel colour, colour with alpha, or grayscale. -/
inductive PILPixel where
  | rgb (r g b : Nat)
  | rgba (r g b a : Nat)
  | gray (v : Nat)
deriving DecidableEq, Repr

/-- A decoded PIL image: a grid of pixels. -/
structure PILImage where
  pixels : List (List PILPixel)
deriving DecidableEq, Repr

/-- Model of PIL `Image.convert("RGB")` on one pixel: drop the alpha
channel, expand grayscale to three equal channels. -/
def convertRGB : PILPixel → Nat × Nat × Nat
  | .rgb r g b => (r, g, b)
  | .rgba r g b _ => (r, g, b)
  | .gray v => (v, v, v)

/-- Model of `cv2.cvtColor(·, cv2.COLOR_RGB2BGR)` on one pixel: reorder
the channels from RGB to BGR. -/
def rgb2bgr (p : Nat × Nat × Nat) : List Nat :=
  [p.2.2, p.2.1, p.1]

/-- The function `load_image` from `src/app.py`:
`rgb_image = np.array(image_file.convert("RGB"))` followed by
`cv2.cvtColor(rgb_image, cv2.COLOR_RGB2BGR)`. -/
def load_image (image_file : PILImage) : BGRImage :=
  let rgb_image := image_file.pixels.map (List.map convertRGB)
  rgb_image.map (List.map rgb2bgr)

/-- All channel values of a pixel fit in 8 bits. -/
def PILPixel.valid8 : PILPixel → Prop
  | .rgb r g b => r < 256 ∧ g < 256 ∧ b < 256
  | .rgba r g b a => r < 256 ∧ g < 256 ∧ b < 256 ∧ a < 256
  | .gray v => v < 256

instance : DecidablePred PILPixel.valid8 := fun p => by
  cases p <;> simp only [PILPixel.valid8] <;> infer_instance

/-- Model of `numpy.ndarray.astype(int)` on one coordinate: truncation toward
zero. -/
def truncQ (q : ℚ) : Int :=
  if 0 ≤ q then q.floor else q.ceil

/-- Model of `astype(int)` on one `(x, y)` point. -/
def truncPoint (p : ℚ × ℚ) : Int × Int :=
  (truncQ p.1, truncQ p.2)

/-- The constant `cv2.FONT_HERSHEY_SIMPLEX`. -/
def FONT_HERSHEY_SIMPLEX : Nat := 0

/-- The constant `cv2.LINE_AA`. -/
def LINE_AA : Nat := 16

/-- An OpenCV drawing primitive applied to a buffer, recorded abstractly:
the annotated buffer is the base pixels plus the list of strokes drawn on
it. -/
inductive DrawOp where
  | polyline (pts : List (Int × Int)) (isClosed : Bool) (color : Nat × Nat × Nat)
      (thickness : Nat)
  | text (label : String) (org : Int × Int) (fontFace : Nat) (fontScale : ℚ)
      (color : Nat × Nat × Nat) (thickness : Nat) (lineType : Nat)
deriving DecidableEq, Repr

/-- A mutable OpenCV image buffer: base pixels plus the drawing strokes
applied so far. -/
structure Image where
  base : BGRImage
  ops : List DrawOp
deriving DecidableEq, Repr, Inhabited

/-- Model of `cv2.polylines(img, [pts], isClosed, color, thickness)`:
records the stroke on the buffer. -/
def cvPolylines (img : Image) (pts : List (Int × Int)) (isClosed : Bool)
    (color : Nat × Nat × Nat) (thickness : Nat) : Image :=
  { img with ops := img.ops ++ [DrawOp.polyline pts isClosed color thickness] }

/-- Model of `cv2.putText(img, label, org, fontFace, fontScale, color,
thickness, lineType)`: records the text stroke on the buffer. -/
def cvPutText (img : Image) (label : String) (org : Int × Int) (fontFace : Nat)
    (fontScale : ℚ) (color : Nat × Nat × Nat) (thickness : Nat) (lineType : Nat) : Image :=
  { img with ops := img.ops ++ [DrawOp.text label org fontFace fontScale color thickness lineType] }

/-- The heap of live buffers: Python array objects addressed by
references (list indices). -/
abbrev Store := List Image

/-- Read the buffer a reference points to. -/
def getAt (s : Store) (i : Nat) : Image :=
  s.getD i default

/-- In-place update of the buffer a reference points to. -/
def setAt (s : Store) (i : Nat) (img : Image) : Store :=
  s.set i img

/-- The `for idx, result in enumerate(results, start=1)` loop body of
`draw_qr_boxes` (`src/qr_detector.py`), acting on the buffer at reference
`output`.  Each iteration draws the polyline, then evaluates
`tuple(pts[0])` — which raises `IndexError` when the point list is empty,
modelled by the `Bool` component turning `false` and the loop stopping —
and then draws the label. -/
def drawLoop (s : Store) (output : Nat) (idx : Nat) :
    List QRCodeResult → Store × Bool
  | [] => (s, true)
  | result :: rest =>
    let pts := result.points.map truncPoint
    let s1 := setAt s output (cvPolylines (getAt s output) pts true (0, 255, 0) 2)
    match pts with
    | [] => (s1, false)
    | p0 :: _ =>
      let label := Nat.repr idx ++ ": " ++ result.data
      let s2 := setAt s1 output
        (cvPutText (getAt s1 output) label p0 FONT_HERSHEY_SIMPLEX (1 / 2) (255, 0, 0) 1 LINE_AA)
      drawLoop s2 output (idx + 1) rest

/-- The function `draw_qr_boxes` from `src/qr_detector.py`: `output = image.copy()`
allocates a fresh buffer (a new reference holding the same pixels), the
loop draws on `output` only, and `output` is returned.  The result
reference is `none` when the loop raised (empty point list). -/
def draw_qr_boxes (s : Store) (image : Nat) (results : List QRCodeResult) :
    Store × Option Nat :=
  let output := s.length
  let s1 := s ++ [getAt s image]
  let r := drawLoop s1 output 1 results
  (r.1, if r.2 then some output else none)

/-- The label drawn for the `idx`-th result: `f"{idx}: {result.data}"`. -/
def labelOf (idx : Nat) (r : QRCodeResult) : String :=
  Nat.repr idx ++ ": " ++ r.data

/-- Specification-side description of the strokes `draw_qr_boxes` adds
for a result list, starting at 1-based index `idx`: one closed green
polygon and one blue label per result, the label anchored at the
truncation of the first boundary point of the result. -/
def annotationOps (idx : Nat) : List QRCodeResult → List DrawOp
  | [] => []
  | r :: rest =>
    DrawOp.polyline (r.points.map truncPoint) true (0, 255, 0) 2 ::
    DrawOp.text (labelOf idx r) (truncPoint r.points.headI) FONT_HERSHEY_SIMPLEX (1 / 2)
      (255, 0, 0) 1 LINE_AA ::
    annotationOps (idx + 1) rest

/-- Whether a stroke is a polygon. -/
def isPolylineOp : DrawOp → Bool
  | .polyline _ _ _ _ => true
  | _ => false

/-- Whether a stroke is a text label. -/
def isTextOp : DrawOp → Bool
  | .text _ _ _ _ _ _ _ => true
  | _ => false

/-- The label string and anchor of a text stroke. -/
def textOf : DrawOp → Option (String × (Int × Int))
  | .text label org _ _ _ _ _ => some (label, org)
  | _ => none

/-- A detector modelled as a relation between input buffers and outputs,
with `detect_qr_codes` holding of any output the relation allows. -/
def DetectsVia (R : BGRImage → List String × Option (List Box) → Prop)
    (image : BGRImage) (results : List QRCodeResult) : Prop :=
  ∃ o, R image o ∧ results = detectFromOutput o.1 o.2

/-- A concrete boundary used to instantiate theorems. -/
def sampleBox : Box :=
  [(0, 0), (10, 0), (10, 10), (0, 10)]

/-- A second concrete boundary used to instantiate theorems. -/
def sampleBox2 : Box :=
  [(20, 0), (30, 0), (30, 10), (20, 10)]

/-- A concrete decoded symbol used to instantiate theorems. -/
def sampleResult : QRCodeResult :=
  { data := "A", points := sampleBox }

/-- A concrete detector used to instantiate theorems: it reports one
decoded symbol and one located-but-undecoded symbol. -/
def sampleDetector : BGRImage → List String × Option (List Box) × Unit :=
  fun _ => (["A", ""], some [sampleBox, sampleBox2], ())

/-- A concrete detector used to instantiate theorems: it locates no
symbol and reports a null boundary output. -/
def nullDetector : BGRImage → List String × Option (List Box) × Unit :=
  fun _ => ([], none, ())

/-- A concrete detector relation (the graph of a constant detector) used
to instantiate the determinism theorem. -/
def sampleRel : BGRImage → List String × Option (List Box) → Prop :=
  fun _ o => o = (["A"], some [sampleBox])

/-- A concrete one-pixel PIL image (with alpha) used to instantiate
theorems. -/
def samplePILImage : PILImage :=
  { pixels := [[PILPixel.rgba 1 2 3 4]] }

/-- A concrete one-pixel buffer used to instantiate theorems. -/
def sampleImage : Image :=
  { base := [[[0, 0, 0]]], ops := [] }

/-- A concrete one-buffer store used to instantiate theorems. -/
def sampleStore : Store :=
  [sampleImage]

lemma foldl_keep_nonempty (l : List (String × Box)) :
    ∀ acc : List QRCodeResult,
      l.foldl keepDecoded acc
      = acc ++ l.filterMap
          (fun tb => if tb.1 = "" then none else some { data := tb.1, points := tb.2 }) := by
  induction l with
  | nil => intro acc; simp
  | cons tb rest ih =>
    intro acc
    rw [List.foldl_cons, List.filterMap_cons, ih]
    by_cases h : tb.1 = "" <;>
      simp [keepDecoded, h, List.append_assoc]

lemma detectFromOutput_eq_filterMap (decoded_texts : List String) (pts : List Box) :
    detectFromOutput decoded_texts (some pts)
      = (decoded_texts.zip pts).filterMap
          (fun tb => if tb.1 = "" then none else some { data := tb.1, points := tb.2 }) := by
  unfold detectFromOutput
  by_cases h : decoded_texts.length = 0
  · have hnil : decoded_texts = [] := List.length_eq_zero.mp h
    subst hnil
    simp
  · simp only [h, if_false, foldl_keep_nonempty, List.nil_append]

lemma detect_qr_codes_eq (detector : BGRImage → List String × Option (List Box) × Unit)
    (image : BGRImage) :
    detect_qr_codes detector image
      = detectFromOutput (detector image).1 (detector image).2.1 := rfl

/-- C1: every `QRCodeResult` in the list returned by `detect_qr_codes`
has non-empty decoded text: entries whose decoded text is empty
(detected-but-undecodable symbols) are filtered out and never appear in
the output list, for every detector output and pixel buffer. -/
theorem detect_qr_codes_text_nonempty
    (detector : BGRImage → List String × Option (List Box) × Unit) (image : BGRImage)
    (r : QRCodeResult) (hr : r ∈ detect_qr_codes detector image) :
    r.data ≠ "" := by
  rw [detect_qr_codes_eq] at hr
  cases hpts : (detector image).2.1 with
  | none => rw [hpts] at hr; simp [detectFromOutput] at hr
  | some pts =>
    rw [hpts, detectFromOutput_eq_filterMap] at hr
    rcases List.mem_filterMap.mp hr with ⟨tb, _, htb⟩
    by_cases h : tb.1 = ""
    · simp [h] at htb
    · simp only [h, if_false, Option.some.injEq] at htb
      rw [← htb]
      exact h

/-- Witness for C1 at a concrete detector that reports one decoded and
one undecoded symbol. -/
theorem detect_qr_codes_text_nonempty_witness :
    ({ data := "A", points := sampleBox } : QRCodeResult).data ≠ "" :=
  detect_qr_codes_text_nonempty sampleDetector [] { data := "A", points := sampleBox }
    (by simp [detect_qr_codes, sampleDetector, detectFromOutput, keepDecoded,
      sampleBox, sampleBox2])

/-- C2: whenever the external detector locates zero symbols (empty
decoded-text sequence) or returns a null boundary output, `detect_qr_codes`
returns the empty list; being a total function into `List QRCodeResult`,
it signals no error. -/
theorem detect_qr_codes_empty_on_none_or_zero
    (detector : BGRImage → List String × Option (List Box) × Unit) (image : BGRImage)
    (h : (detector image).1 = [] ∨ (detector image).2.1 = none) :
    detect_qr_codes detector image = [] := by
  rw [detect_qr_codes_eq]
  rcases h with h | h
  · rw [h]
    cases hpts : (detector image).2.1 <;> simp [detectFromOutput]
  · rw [h]
    simp [detectFromOutput]

/-- Witness for C2 at a concrete detector that locates nothing and
returns a null boundary output. -/
theorem detect_qr_codes_empty_on_none_or_zero_witness :
    detect_qr_codes nullDetector [] = [] :=
  detect_qr_codes_empty_on_none_or_zero nullDetector [] (Or.inl rfl)

/-- C5: `detect_qr_codes` preserves detector order — whenever the
detector returns boundaries, the output is exactly the subsequence of the
zipped `(text, boundary)` pairs whose text is non-empty, in emission
order, each kept symbol carrying its own boundary unchanged. -/
theorem detect_qr_codes_order
    (detector : BGRImage → List String × Option (List Box) × Unit) (image : BGRImage)
    (boxes : List Box) (hb : (detector image).2.1 = some boxes) :
    detect_qr_codes detector image
      = ((detector image).1.zip boxes).filterMap
          (fun tb => if tb.1 = "" then none else some { data := tb.1, points := tb.2 }) := by
  rw [detect_qr_codes_eq, hb, detectFromOutput_eq_filterMap]

/-- Witness for C5 at a concrete detector whose second symbol is
undecoded: the output is the one-element filtered subsequence. -/
theorem detect_qr_codes_order_witness :
    detect_qr_codes sampleDetector [] = [{ data := "A", points := sampleBox }] := by
  rw [detect_qr_codes_order sampleDetector [] [sampleBox, sampleBox2] rfl]
  simp [sampleDetector]

/-- C9: `detect_qr_codes` is deterministic — if the external detector is
deterministic for a fixed input, two detection runs on the identical
pixel buffer yield identical decoded text values. -/
theorem detect_qr_codes_deterministic
    (R : BGRImage → List String × Option (List Box) → Prop) (image : BGRImage)
    (r1 r2 : List QRCodeResult)
    (hdet : ∀ img o1 o2, R img o1 → R img o2 → o1 = o2)
    (h1 : DetectsVia R image r1) (h2 : DetectsVia R image r2) :
    r1.map QRCodeResult.data = r2.map QRCodeResult.data := by
  obtain ⟨o1, hR1, he1⟩ := h1
  obtain ⟨o2, hR2, he2⟩ := h2
  rw [he1, he2, hdet image o1 o2 hR1 hR2]

/-- Witness for C9 at the graph of a concrete constant detector. -/
theorem detect_qr_codes_deterministic_witness :
    List.map QRCodeResult.data (detectFromOutput ["A"] (some [sampleBox]))
      = List.map QRCodeResult.data (detectFromOutput ["A"] (some [sampleBox])) :=
  detect_qr_codes_deterministic sampleRel []
    (detectFromOutput ["A"] (some [sampleBox]))
    (detectFromOutput ["A"] (some [sampleBox]))
    (fun _ _ _ ha hb => by rw [ha, hb])
    ⟨(["A"], some [sampleBox]), rfl, rfl⟩
    ⟨(["A"], some [sampleBox]), rfl, rfl⟩

/-- C4: `format_results` maps the `i`-th symbol (0-based `i`) to the
string `"<i+1>. <data>"`, in the same order and with the same length as
the input list; it is a pure function. -/
theorem format_results_spec (results : List QRCodeResult) :
    (format_results results).length = results.length ∧
    ∀ i r, results.get? i = some r →
      (format_results results).get? i = some (Nat.repr (i + 1) ++ ". " ++ r.data) := by
  constructor
  · simp [format_results]
  · intro i r hir
    rw [List.get?_eq_getElem?] at hir
    simp [format_results, List.get?_eq_getElem?, List.getElem?_enumFrom, hir, Nat.add_comm]

/-- Witness for C4 on a concrete one-element list. -/
theorem format_results_spec_witness :
    (format_results [sampleResult]).get? 0 = some (Nat.repr 1 ++ ". " ++ sampleResult.data) := by
  have h := (format_results_spec [sampleResult]).2 0 sampleResult rfl
  simpa using h

/-- C8: `count_qr_codes` returns exactly the length of the given list;
in particular it returns `0` on the empty list. -/
theorem count_qr_codes_spec :
    (∀ results : List QRCodeResult, count_qr_codes results = results.length)
    ∧ count_qr_codes [] = 0 :=
  ⟨fun _ => rfl, rfl⟩

/-- C7: `load_image` is total (a function into `BGRImage`, signalling no
error) and, for every decodable input image in any colour mode, produces
a buffer of the same height, each row of the same width, every pixel
being the three channels of the RGB conversion reordered into BGR (the
reverse of the display order), and 8-bit channels stay 8-bit. -/
theorem load_image_spec (img : PILImage) :
    (load_image img).length = img.pixels.length ∧
    (∀ y row, img.pixels.get? y = some row →
      ∃ row2, (load_image img).get? y = some row2 ∧ row2.length = row.length ∧
        ∀ x pix, row.get? x = some pix →
          row2.get? x
            = some [(convertRGB pix).2.2, (convertRGB pix).2.1, (convertRGB pix).1]) ∧
    (∀ pix : PILPixel, pix.valid8 → ∀ c ∈ rgb2bgr (convertRGB pix), c < 256) ∧
    (∀ p : Nat × Nat × Nat, rgb2bgr p = [p.1, p.2.1, p.2.2].reverse) := by
  refine ⟨by simp [load_image], ?_, ?_, fun p => rfl⟩
  · intro y row hy
    rw [List.get?_eq_getElem?] at hy
    refine ⟨(row.map convertRGB).map rgb2bgr, ?_, by simp, ?_⟩
    · simp [load_image, List.get?_eq_getElem?, hy]
    · intro x pix hx
      rw [List.get?_eq_getElem?] at hx
      simp [List.get?_eq_getElem?, hx, rgb2bgr]
  · intro pix hv c hc
    cases pix with
    | rgb r g b =>
      obtain ⟨h1, h2, h3⟩ := hv
      simp [convertRGB, rgb2bgr] at hc
      rcases hc with rfl | rfl | rfl <;> assumption
    | rgba r g b a =>
      obtain ⟨h1, h2, h3, _⟩ := hv
      simp [convertRGB, rgb2bgr] at hc
      rcases hc with rfl | rfl | rfl <;> assumption
    | gray v =>
      simp only [PILPixel.valid8] at hv
      simp [convertRGB, rgb2bgr] at hc
      omega

/-- Witness for C7 on a concrete one-pixel RGBA image: the row exists,
has the input width, and the pixel comes out in BGR order. -/
theorem load_image_spec_witness :
    ∃ row2, (load_image samplePILImage).get? 0 = some row2 ∧
      row2.length = 1 ∧
      ∀ x pix, [PILPixel.rgba 1 2 3 4].get? x = some pix →
        row2.get? x
          = some [(convertRGB pix).2.2, (convertRGB pix).2.1, (convertRGB pix).1] :=
  (load_image_spec samplePILImage).2.1 0 [PILPixel.rgba 1 2 3 4] rfl

lemma length_setAt (s : Store) (i : Nat) (img : Image) :
    (setAt s i img).length = s.length := by
  simp [setAt]

lemma getAt_setAt_self (s : Store) (i : Nat) (img : Image) (h : i < s.length) :
    getAt (setAt s i img) i = img := by
  simp [getAt, setAt, List.getD_eq_getElem?_getD, List.getElem?_set_self h]

lemma getAt_setAt_ne (s : Store) (i j : Nat) (img : Image) (h : i ≠ j) :
    getAt (setAt s i img) j = getAt s j := by
  simp [getAt, setAt, List.getD_eq_getElem?_getD, List.getElem?_set_ne h]

lemma getAt_append_lt (s : Store) (x : Image) (i : Nat) (h : i < s.length) :
    getAt (s ++ [x]) i = getAt s i := by
  simp [getAt, List.getD_eq_getElem?_getD, List.getElem?_append_left h]

lemma getAt_append_length (s : Store) (x : Image) :
    getAt (s ++ [x]) s.length = x := by
  simp [getAt, List.getD_eq_getElem?_getD, List.getElem?_concat_length]

lemma drawLoop_preserves (results : List QRCodeResult) :
    ∀ (s : Store) (output idx j : Nat), j ≠ output →
      getAt (drawLoop s output idx results).1 j = getAt s j := by
  induction results with
  | nil => intro s output idx j _; rfl
  | cons r rest ih =>
    intro s output idx j h
    rcases hq : r.points with _ | ⟨q, qs⟩
    · simp only [drawLoop, hq, List.map_nil]
      exact getAt_setAt_ne _ _ _ _ (Ne.symm h)
    · simp only [drawLoop, hq, List.map_cons]
      rw [ih _ _ _ _ h, getAt_setAt_ne _ _ _ _ (Ne.symm h),
        getAt_setAt_ne _ _ _ _ (Ne.symm h)]

/-- C3: `draw_qr_boxes` never mutates its input buffer — for every store,
every valid input-buffer reference and every list of symbols (whether or
not the drawing loop raises), the buffer the input reference points to is
unchanged afterwards; all drawing happens on the freshly allocated
copy. -/
theorem draw_qr_boxes_no_mutation (s : Store) (image : Nat)
    (results : List QRCodeResult) (h : image < s.length) :
    getAt (draw_qr_boxes s image results).1 image = getAt s image := by
  have hne : image ≠ s.length := Nat.ne_of_lt h
  show getAt (drawLoop (s ++ [getAt s image]) s.length 1 results).1 image = getAt s image
  rw [drawLoop_preserves results _ _ _ _ hne]
  exact getAt_append_lt s _ image h

/-- Witness for C3 on a concrete one-buffer store and one symbol. -/
theorem draw_qr_boxes_no_mutation_witness :
    getAt (draw_qr_boxes sampleStore 0 [sampleResult]).1 0 = getAt sampleStore 0 :=
  draw_qr_boxes_no_mutation sampleStore 0 [sampleResult] (by decide)

/-- C10: `draw_qr_boxes` on the empty symbol list is the identity up to
copying — it returns a fresh reference (distinct from the input
reference) whose buffer is pixel-for-pixel (and stroke-for-stroke) equal
to the input buffer, with nothing drawn, and the input buffer stays
unchanged. -/
theorem draw_qr_boxes_empty_copy (s : Store) (image : Nat) (h : image < s.length) :
    (draw_qr_boxes s image []).2 = some s.length ∧
    s.length ≠ image ∧
    getAt (draw_qr_boxes s image []).1 s.length = getAt s image ∧
    getAt (draw_qr_boxes s image []).1 image = getAt s image := by
  refine ⟨rfl, Nat.ne_of_gt h, ?_, ?_⟩
  · show getAt (s ++ [getAt s image]) s.length = getAt s image
    exact getAt_append_length s _
  · show getAt (s ++ [getAt s image]) image = getAt s image
    exact getAt_append_lt s _ image h

/-- Witness for C10 on a concrete one-buffer store. -/
theorem draw_qr_boxes_empty_copy_witness :
    (draw_qr_boxes sampleStore 0 []).2 = some sampleStore.length ∧
    sampleStore.length ≠ 0 ∧
    getAt (draw_qr_boxes sampleStore 0 []).1 sampleStore.length = getAt sampleStore 0 ∧
    getAt (draw_qr_boxes sampleStore 0 []).1 0 = getAt sampleStore 0 :=
  draw_qr_boxes_empty_copy sampleStore 0 (by decide)

lemma drawLoop_spec (results : List QRCodeResult) :
    ∀ (s : Store) (output idx : Nat), output < s.length →
      (∀ r ∈ results, r.points ≠ []) →
      (drawLoop s output idx results).2 = true ∧
      getAt (drawLoop s output idx results).1 output
        = { getAt s output with ops := (getAt s output).ops ++ annotationOps idx results } := by
  induction results with
  | nil =>
    intro s output idx _ _
    exact ⟨rfl, by simp [drawLoop, annotationOps]⟩
  | cons r rest ih =>
    intro s output idx hlen h
    have hr : r.points ≠ [] := h r (List.mem_cons_self r rest)
    rcases hq : r.points with _ | ⟨q, qs⟩
    · exact absurd hq hr
    simp only [drawLoop, hq, List.map_cons]
    have h1 : getAt (setAt s output
        (cvPolylines (getAt s output) (truncPoint q :: qs.map truncPoint) true (0, 255, 0) 2))
        output
        = cvPolylines (getAt s output) (truncPoint q :: qs.map truncPoint) true (0, 255, 0) 2 :=
      getAt_setAt_self _ _ _ hlen
    rw [h1]
    have hlen2 : output < (setAt (setAt s output
        (cvPolylines (getAt s output) (truncPoint q :: qs.map truncPoint) true (0, 255, 0) 2))
        output
        (cvPutText
          (cvPolylines (getAt s output) (truncPoint q :: qs.map truncPoint) true (0, 255, 0) 2)
          (Nat.repr idx ++ ": " ++ r.data) (truncPoint q) FONT_HERSHEY_SIMPLEX (1 / 2)
          (255, 0, 0) 1 LINE_AA)).length := by
      rw [length_setAt, length_setAt]; exact hlen
    have htail : ∀ x ∈ rest, x.points ≠ [] := fun x hx => h x (List.mem_cons_of_mem r hx)
    obtain ⟨hb, hops⟩ := ih _ output (idx + 1) hlen2 htail
    refine ⟨hb, ?_⟩
    rw [hops, getAt_setAt_self _ _ _ (by rw [length_setAt]; exact hlen)]
    simp [cvPutText, cvPolylines, annotationOps, hq, labelOf, List.append_assoc]

lemma annotationOps_countP_polyline :
    ∀ (idx : Nat) (results : List QRCodeResult),
      (annotationOps idx results).countP isPolylineOp = results.length := by
  intro idx results
  induction results generalizing idx with
  | nil => rfl
  | cons r rest ih => simp [annotationOps, List.countP_cons, isPolylineOp, ih]

lemma annotationOps_countP_text :
    ∀ (idx : Nat) (results : List QRCodeResult),
      (annotationOps idx results).countP isTextOp = results.length := by
  intro idx results
  induction results generalizing idx with
  | nil => rfl
  | cons r rest ih => simp [annotationOps, List.countP_cons, isTextOp, ih]

lemma annotationOps_textOf :
    ∀ (idx : Nat) (results : List QRCodeResult),
      (annotationOps idx results).filterMap textOf
        = (List.enumFrom idx results).map
            (fun p => (labelOf p.1 p.2, truncPoint p.2.points.headI)) := by
  intro idx results
  induction results generalizing idx with
  | nil => rfl
  | cons r rest ih => simp [annotationOps, List.filterMap_cons, textOf, ih]

/-- C6: for every list of symbols whose boundaries are non-empty,
`draw_qr_boxes` succeeds and adds to the output copy exactly the strokes
`annotationOps 1 results`, which contain exactly one polygon and exactly
one text label per symbol (both counts equal the list length), iterating
in list order with a 1-based index, each label being
`"<index>: <decoded text>"` anchored at the truncation of the first
boundary point of the symbol. -/
theorem draw_qr_boxes_annotations (s : Store) (image : Nat)
    (results : List QRCodeResult) (h : ∀ r ∈ results, r.points ≠ []) :
    (draw_qr_boxes s image results).2 = some s.length ∧
    (getAt (draw_qr_boxes s image results).1 s.length).ops
      = (getAt s image).ops ++ annotationOps 1 results ∧
    (annotationOps 1 results).countP isPolylineOp = results.length ∧
    (annotationOps 1 results).countP isTextOp = results.length ∧
    (annotationOps 1 results).filterMap textOf
      = (List.enumFrom 1 results).map
          (fun p => (labelOf p.1 p.2, truncPoint p.2.points.headI)) := by
  have hlen : s.length < (s ++ [getAt s image]).length := by simp
  obtain ⟨hb, hops⟩ := drawLoop_spec results (s ++ [getAt s image]) s.length 1 hlen h
  refine ⟨?_, ?_, annotationOps_countP_polyline 1 results,
    annotationOps_countP_text 1 results, annotationOps_textOf 1 results⟩
  · show (if (drawLoop (s ++ [getAt s image]) s.length 1 results).2
        then some s.length else none) = some s.length
    rw [hb]
    rfl
  · show (getAt (drawLoop (s ++ [getAt s image]) s.length 1 results).1 s.length).ops
      = (getAt s image).ops ++ annotationOps 1 results
    rw [hops, getAt_append_length]

/-- Witness for C6 on a concrete store and a single concrete symbol. -/
theorem draw_qr_boxes_annotations_witness :
    (draw_qr_boxes sampleStore 0 [sampleResult]).2 = some sampleStore.length ∧
    (annotationOps 1 [sampleResult]).countP isPolylineOp = 1 := by
  have h := draw_qr_boxes_annotations sampleStore 0 [sampleResult] (by decide)
  exact ⟨h.1, h.2.2.1⟩

end QRApp
